import Mathlib

/-!
Verification development for the server-reservation system
(FastAPI backend + React frontend, PostgreSQL store).

The booking engine itself (service layer, conflict detection, calendar
sync) is described by `docs/ARCHITECTURE.md` and the specification; the
frontend code (`frontend/src/api/client.ts` axios interceptor,
`frontend/src/components/ReservationModal.tsx`) is embedded directly
from its TypeScript source.

Timestamps are modelled as integers (milliseconds since the Unix epoch,
matching both `TIMESTAMPTZ` instants and JavaScript `Date` time values).
-/

namespace ServerReservation

/-- Modelled from the spec (§4.1 Time Range): a half-open interval
`[start_at, end_at)` over timezone-aware instants. -/
structure TimeRange where
  start_at : Int
  end_at : Int
deriving DecidableEq

/-- Modelled from the spec (§4.1): `overlaps(other)` with the half-open
rule `a.start < b.end AND b.start < a.end`. -/
def TimeRange.overlaps (a b : TimeRange) : Bool :=
  decide (a.start_at < b.end_at) && decide (b.start_at < a.end_at)

/-- Modelled from the spec (§4.1): `valid()` requires strictly positive
duration, i.e. `end_at > start_at` (the `CHECK (end_at > start_at)`
constraint of `docs/ARCHITECTURE.md` §3). -/
def TimeRange.valid (a : TimeRange) : Bool :=
  decide (a.start_at < a.end_at)

/-- Reservation lifecycle status (`docs/ARCHITECTURE.md` §3: ENUM with
values used by the exclusion constraint). -/
inductive Status where
  | active
  | cancelled
deriving DecidableEq

/-- Modelled from `docs/ARCHITECTURE.md` §3 (reservations table):
identity, owner, resource, title, optional description, half-open range,
lifecycle status, optional Google Calendar correlation id. -/
structure Reservation where
  id : Nat
  user_id : Nat
  server_resource_id : Nat
  title : String
  description : Option String
  start_at : Int
  end_at : Int
  status : Status
  google_event_id : Option String
deriving DecidableEq

/-- The reservation's time range as a `TimeRange` value. -/
def Reservation.range (r : Reservation) : TimeRange :=
  ⟨r.start_at, r.end_at⟩

/-- Modelled from `docs/ARCHITECTURE.md` §3 (server_resources table). -/
structure ServerResource where
  id : Nat
  name : String
  is_active : Bool
deriving DecidableEq

/-- Identity collaborator's role flag (§6: user/admin). -/
inductive Role where
  | user
  | admin
deriving DecidableEq

/-- Modelled from the spec (§4.2 Reservation Store): the durable state —
resources, reservations, and the next fresh reservation id. -/
structure Store where
  resources : List ServerResource
  reservations : List Reservation
  next_id : Nat
deriving DecidableEq

/-- Error kinds of the spec's §7. -/
inductive BookingError where
  | InvalidRange
  | ResourceNotFound
  | ResourceInactive
  | Conflict
  | NotOwner
  | PastReservation
  | Busy
  | NotFound
deriving DecidableEq

/-- Point lookup of a resource by id (§4.2 point lookup). -/
def findResource (s : Store) (rid : Nat) : Option ServerResource :=
  s.resources.find? fun res => decide (res.id = rid)

/-- Point lookup of a reservation by id (§4.2 point lookup). -/
def findReservation (s : Store) (rid : Nat) : Option Reservation :=
  s.reservations.find? fun r => decide (r.id = rid)

/-- Modelled from the spec (§4.3 Conflict Detector): pure function
`hasConflict(resourceId, candidateRange, excludeReservationId?)` over the
currently visible active reservations of that resource; `excludeId`
supports update-in-place re-validation. -/
def hasConflict (reservations : List Reservation) (resourceId : Nat)
    (candidate : TimeRange) (excludeId : Option Nat) : Bool :=
  reservations.any fun r =>
    decide (r.server_resource_id = resourceId) &&
    decide (r.status = Status.active) &&
    (match excludeId with
     | some i => decide (r.id ≠ i)
     | none => true) &&
    TimeRange.overlaps r.range candidate

/-- Ownership check of §4.4: the requester is the owner, or an
administrator overriding ownership. -/
def isOwnerOrAdmin (r : Reservation) (requesterId : Nat) (role : Role) : Bool :=
  decide (r.user_id = requesterId) || decide (role = Role.admin)

/-- Create request payload (§6: resource id, user id, title, optional
description, start/end instants). -/
structure CreateRequest where
  server_resource_id : Nat
  user_id : Nat
  title : String
  description : Option String
  start_at : Int
  end_at : Int
deriving DecidableEq

/-- Modelled from the spec (§4.4 create): validate the range (schema
validation precedes any lookup), check the resource exists and is
active, run conflict detection under the resource-scoped exclusive
access, and on success insert the active reservation with a fresh id and
no calendar correlation id. -/
def create (s : Store) (req : CreateRequest) :
    Except BookingError (Store × Reservation) :=
  if ¬ req.start_at < req.end_at then .error .InvalidRange
  else
    match findResource s req.server_resource_id with
    | none => .error .ResourceNotFound
    | some res =>
      if ¬ res.is_active then .error .ResourceInactive
      else if hasConflict s.reservations req.server_resource_id
          ⟨req.start_at, req.end_at⟩ none then .error .Conflict
      else
        let r : Reservation :=
          { id := s.next_id
            user_id := req.user_id
            server_resource_id := req.server_resource_id
            title := req.title
            description := req.description
            start_at := req.start_at
            end_at := req.end_at
            status := Status.active
            google_event_id := none }
        .ok ({ s with reservations := r :: s.reservations,
                      next_id := s.next_id + 1 }, r)

/-- Update request payload (PUT /reservations/{id}: new title, optional
description, new range; the resource may optionally be moved, per §3
"Update of start_at/end_at/resource_id"). -/
structure UpdateRequest where
  title : String
  description : Option String
  start_at : Int
  end_at : Int
  server_resource_id : Option Nat
deriving DecidableEq

/-- Modelled from the spec (§4.4 update): schema-validate the range,
look the reservation up, enforce ownership, enforce the temporal guard
(`end_at` already passed ⇒ `PastReservation`), then re-run the full
conflict check against the target resource with the reservation's own
prior row excluded from the overlap set, and commit in place. -/
def update (s : Store) (now : Int) (reservationId requesterId : Nat)
    (role : Role) (req : UpdateRequest) :
    Except BookingError (Store × Reservation) :=
  if ¬ req.start_at < req.end_at then .error .InvalidRange
  else
    match findReservation s reservationId with
    | none => .error .NotFound
    | some r =>
      if ¬ isOwnerOrAdmin r requesterId role then .error .NotOwner
      else if r.end_at ≤ now then .error .PastReservation
      else
        let targetResource := req.server_resource_id.getD r.server_resource_id
        match findResource s targetResource with
        | none => .error .ResourceNotFound
        | some res =>
          if ¬ res.is_active then .error .ResourceInactive
          else if hasConflict s.reservations targetResource
              ⟨req.start_at, req.end_at⟩ (some r.id) then .error .Conflict
          else
            let r' : Reservation :=
              { r with
                title := req.title
                description := req.description
                start_at := req.start_at
                end_at := req.end_at
                server_resource_id := targetResource }
            .ok ({ s with reservations :=
                     s.reservations.map fun x =>
                       if x.id = r.id then r' else x }, r')

/-- Modelled from the spec (§4.4 cancel): look up, enforce ownership;
cancelling an already-cancelled reservation is a no-op success
(the deliberate idempotence guarantee for retry safety); otherwise the
temporal guard applies, and the status transitions to cancelled —
never a physical deletion. -/
def cancel (s : Store) (now : Int) (reservationId requesterId : Nat)
    (role : Role) : Except BookingError (Store × Reservation) :=
  match findReservation s reservationId with
  | none => .error .NotFound
  | some r =>
    if ¬ isOwnerOrAdmin r requesterId role then .error .NotOwner
    else if r.status = Status.cancelled then .ok (s, r)
    else if r.end_at ≤ now then .error .PastReservation
    else
      let r' : Reservation := { r with status := Status.cancelled }
      .ok ({ s with reservations :=
               s.reservations.map fun x =>
                 if x.id = r.id then r' else x }, r')

/-- Modelled from the spec (§4.4 and §7: reads are always permitted,
even on past reservations). -/
def getReservation (s : Store) (reservationId : Nat) :
    Except BookingError Reservation :=
  match findReservation s reservationId with
  | none => .error .NotFound
  | some r => .ok r

/-- Core invariant (spec §3): for a fixed resource, no two distinct
active reservations have overlapping half-open ranges. -/
def NoOverlap (l : List Reservation) : Prop :=
  ∀ a ∈ l, ∀ b ∈ l, a.id ≠ b.id → a.server_resource_id = b.server_resource_id →
    a.status = Status.active → b.status = Status.active →
    TimeRange.overlaps a.range b.range = false

/-- Range validity invariant (spec §3 / `CHECK (end_at > start_at)`). -/
def ValidRanges (l : List Reservation) : Prop :=
  ∀ r ∈ l, r.start_at < r.end_at

/-- Store well-formedness: reservation ids are those issued by the
store, so `next_id` is fresh. -/
def FreshIds (s : Store) : Prop :=
  ∀ r ∈ s.reservations, r.id < s.next_id

/-- Modelled from `docs/ARCHITECTURE.md` §3: PostgreSQL `tstzrange(a, b)
&& tstzrange(c, d)` — a range with `end ≤ start` is empty and an empty
range overlaps nothing; two nonempty ranges intersect exactly under the
half-open rule. This is the storage-level semantics of the
`EXCLUDE USING gist (server_resource_id WITH =, tstzrange(start_at,
end_at) WITH &&) WHERE (status = 'active')` constraint. -/
def tstzrangeOverlap (a b : TimeRange) : Bool :=
  a.valid && b.valid &&
  decide (a.start_at < b.end_at) && decide (b.start_at < a.end_at)

/-- Modelled from `docs/ARCHITECTURE.md` §3 and spec §4.2: the storage
layer refuses an insert of an active row for `resourceId` with range
`candidate` exactly when some stored active row of the same resource
range-overlaps it (the defense-in-depth exclusion constraint). -/
def dbExcludeViolation (reservations : List Reservation) (resourceId : Nat)
    (candidate : TimeRange) : Bool :=
  reservations.any fun r =>
    decide (r.server_resource_id = resourceId) &&
    decide (r.status = Status.active) &&
    tstzrangeOverlap r.range candidate

/-- Modelled from `docs/ARCHITECTURE.md` §5 / spec §9: the calendar
collaborator's response, normalized at the adapter boundary into a fixed
sum type. Both failure kinds cover network errors, external service
errors, misconfiguration and timeouts. -/
inductive SyncResult where
  | success (eventId : String)
  | transientFailure
  | permanentFailure
deriving DecidableEq

/-- Whether a sync outcome is a failure (of either kind). -/
def SyncResult.isFailure : SyncResult → Bool
  | .success _ => false
  | .transientFailure => true
  | .permanentFailure => true

/-- Modelled from the spec (§4.4 / §4.5) and `docs/ARCHITECTURE.md` §5:
the booking transaction commits first; strictly afterwards the calendar
sync adapter is invoked on the committed reservation. On sync success
the correlation id is recorded and `calendar_synced = true` is reported;
on sync failure the failure is only logged, `google_event_id` stays
`null`, and the response carries `calendar_synced = false` — the booking
outcome is unchanged. -/
def createWithSync (s : Store) (req : CreateRequest)
    (sync : Reservation → SyncResult) :
    Except BookingError (Store × Reservation × Bool) :=
  match create s req with
  | .error e => .error e
  | .ok (s', r) =>
    match sync r with
    | .success eid =>
      let r' : Reservation := { r with google_event_id := some eid }
      .ok ({ s' with reservations :=
               s'.reservations.map fun x => if x.id = r.id then r' else x },
           r', true)
    | _ => .ok (s', r, false)

/-- Modelled from the spec (§4.4 tie-break / §5 ordering guarantee): the
resource-scoped exclusive access fully serializes concurrently submitted
booking requests, so a batch of N concurrent requests is executed in
acquisition order; each slot records whether its create succeeded. -/
def runCreates : Store → List CreateRequest → List Bool × Store
  | s, [] => ([], s)
  | s, q :: qs =>
    match create s q with
    | .ok (s', _) =>
      let p := runCreates s' qs
      (true :: p.1, p.2)
    | .error _ =>
      let p := runCreates s qs
      (false :: p.1, p.2)

/-! ### Frontend API client (`frontend/src/api/client.ts`) -/

/-- Browser `localStorage` slots used by the client. -/
structure TokenStorage where
  access_token : Option String
  refresh_token : Option String
deriving DecidableEq

/-- Observable browser state: the token storage and whether
`window.location.href` was assigned (the navigation target). -/
structure BrowserState where
  storage : TokenStorage
  location : Option String
deriving DecidableEq

/-- Final disposition of one `api(...)` call as seen by the caller. -/
inductive HttpOutcome where
  /-- the promise resolved with a 2xx response after `attempts` sends -/
  | resolvedOk (attempts : Nat)
  /-- the promise was rejected with the given error status after
  `attempts` sends -/
  | rejectedStatus (status : Nat) (attempts : Nat)
  /-- recursion budget exhausted — never reached (proved below) -/
  | outOfFuel
deriving DecidableEq

/-- Number of sends of the request performed before the outcome. -/
def HttpOutcome.attempts : HttpOutcome → Nat
  | .resolvedOk n => n
  | .rejectedStatus _ n => n
  | .outOfFuel => 0

/-- Embedding of the axios response interceptor of
`frontend/src/api/client.ts`: on a non-2xx response the error handler
runs; on status 401 with `originalRequest._retry` unset it sets the
flag, reads the refresh token, calls `/auth/refresh` with the raw axios
instance (not intercepted), and on refresh success stores the new token
pair and re-enters `api(originalRequest)`; on refresh failure it clears
both tokens and navigates to `/login` before rejecting; with no refresh
token it navigates to `/login` and rejects; every other error (including
a 401 whose request already carries `_retry`) is rejected unchanged.
`respond` gives the server's status for each successive send of this
request; `refreshResponse` is the refresh endpoint's outcome (`none` =
it threw). `fuel` bounds the re-entries structurally; two units suffice
(proved below). -/
def runApi (respond : Nat → Nat) (refreshResponse : Option (String × String)) :
    Nat → Bool → Nat → BrowserState → HttpOutcome × BrowserState
  | 0, _, _, b => (.outOfFuel, b)
  | fuel + 1, retryFlag, attempt, b =>
    let status := respond attempt
    if status = 200 then (.resolvedOk (attempt + 1), b)
    else if status = 401 ∧ retryFlag = false then
      match b.storage.refresh_token with
      | some _ =>
        match refreshResponse with
        | some (newAccess, newRefresh) =>
          runApi respond refreshResponse fuel true (attempt + 1)
            { b with storage :=
                { access_token := some newAccess,
                  refresh_token := some newRefresh } }
        | none =>
          (.rejectedStatus status (attempt + 1),
           { storage := { access_token := none, refresh_token := none },
             location := some "/login" })
      | none =>
        (.rejectedStatus status (attempt + 1), { b with location := some "/login" })
    else (.rejectedStatus status (attempt + 1), b)

/-! ### JavaScript `Date` semantics used by `ReservationModal.tsx`

ECMAScript time values are milliseconds since the epoch; a `Date` is
valid exactly when its time value's magnitude is at most
8,640,000,000,000,000 ms. `toISOString` throws a `RangeError` on an
invalid `Date`; otherwise it formats the UTC proleptic-Gregorian civil
date, padding the year to 4 digits for years 0–9999 and using the
expanded `±YYYYYY` form otherwise. -/

/-- Maximum magnitude of an ECMAScript time value (ms). -/
def maxTimeValue : Nat := 8640000000000000

/-- Civil date (year, month, day) of a day count relative to 1970-01-01,
proleptic Gregorian — the calendar ECMAScript's `YearFromTime`,
`MonthFromTime` and `DateFromTime` compute. -/
def civilFromDays (z0 : Int) : Int × Nat × Nat :=
  let z := z0 + 719468
  let era := z / 146097
  let doe := z - era * 146097
  let yoe := (doe - doe / 1460 + doe / 36524 - doe / 146096) / 365
  let y := yoe + era * 400
  let doy := doe - (365 * yoe + yoe / 4 - yoe / 100)
  let mp := (5 * doy + 2) / 153
  let d := doy - (153 * mp + 2) / 5 + 1
  let m := if mp < 10 then mp + 3 else mp - 9
  (if m ≤ 2 then y + 1 else y, m.toNat, d.toNat)

/-- Two decimal digits, zero-padded. -/
def pad2 (n : Nat) : List Char :=
  [Nat.digitChar (n / 10 % 10), Nat.digitChar (n % 10)]

/-- Three decimal digits, zero-padded. -/
def pad3 (n : Nat) : List Char :=
  Nat.digitChar (n / 100 % 10) :: pad2 n

/-- Four decimal digits, zero-padded. -/
def pad4 (n : Nat) : List Char :=
  Nat.digitChar (n / 1000 % 10) :: pad3 n

/-- Six decimal digits, zero-padded. -/
def pad6 (n : Nat) : List Char :=
  Nat.digitChar (n / 100000 % 10) :: Nat.digitChar (n / 10000 % 10) :: pad4 n

/-- Year field of `toISOString`: 4 digits for 0–9999, expanded
`±YYYYYY` otherwise (ECMAScript Date Time String Format). -/
def yearChars (y : Int) : List Char :=
  if 0 ≤ y ∧ y ≤ 9999 then pad4 y.toNat
  else if y < 0 then '-' :: pad6 y.natAbs
  else '+' :: pad6 y.toNat

/-- First five fields of the ISO string of a time value:
year, '-', month, '-', day, 'T', hours, ':', minutes. -/
def isoHead16 (t : Int) : List Char :=
  let msod := t % 86400000
  let c := civilFromDays (t / 86400000)
  yearChars c.1 ++ '-' :: pad2 c.2.1 ++ '-' :: pad2 c.2.2 ++
    'T' :: pad2 (msod / 3600000).toNat ++ ':' :: pad2 ((msod / 60000) % 60).toNat

/-- Full character sequence produced by `Date.prototype.toISOString` on
a valid `Date` with time value `t`. -/
def toISOChars (t : Int) : List Char :=
  isoHead16 t ++
    (':' :: pad2 ((t % 86400000 / 1000) % 60).toNat ++
      ('.' :: pad3 (t % 86400000 % 1000).toNat ++ ['Z']))

/-- Model of JavaScript `String.prototype.trim` (written in the code as
`String(iso).trim()`): strip whitespace from both ends, computed on the
character list. -/
def jsTrim (s : String) : String :=
  String.mk (((s.data.dropWhile Char.isWhitespace).reverse.dropWhile
    Char.isWhitespace).reverse)

/-- Embedding of `toLocalDatetime` from
`frontend/src/components/ReservationModal.tsx` (lines 22–29).
`parse` models `new Date(string).getTime()` (`none` = `NaN`; a
successful parse is an in-range time value); `offsetOf` models
`getTimezoneOffset()` (minutes, as a function of the instant).
The result is `none` exactly when the code throws: `toISOString` raises
a `RangeError` when the offset-adjusted time value leaves the
representable range, which the code does not guard (it checks `NaN`
only on `d`, not on `local`). `.slice(0, 16)` is the UTF-16 prefix,
modelled as `List.take 16` on the characters. -/
def toLocalDatetime (parse : String → Option Int) (offsetOf : Int → Int)
    (iso : String) : Option String :=
  if iso = "" ∨ jsTrim iso = "" then some ""
  else
    match parse iso with
    | none => some ""
    | some t =>
      let adjusted := t - offsetOf t * 60000
      if adjusted.natAbs ≤ maxTimeValue then
        some (String.mk ((toISOChars adjusted).take 16))
      else none

/-- ECMAScript `Date.parse` on the single Date Time String Format
instant `"+275760-09-13T00:00:00.000Z"`, the largest representable
instant, whose time value is exactly `maxTimeValue`. -/
def parseMaxInstant (s : String) : Option Int :=
  if s = "+275760-09-13T00:00:00.000Z" then some (Int.ofNat maxTimeValue)
  else none

/-- `getTimezoneOffset()` in a UTC+9 zone (e.g. Asia/Seoul): −540. -/
def offsetSeoul (_ : Int) : Int := -540

/-! ### Concrete fixtures used to instantiate the theorems -/

/-- A store with one active resource and no reservations. -/
def emptyStore : Store :=
  { resources := [⟨1, "gpu-server-1", true⟩], reservations := [], next_id := 0 }

/-- A create request on resource 1 by user 7 for `[a, b)`. -/
def reqFor (a b : Int) : CreateRequest :=
  { server_resource_id := 1, user_id := 7, title := "training",
    description := none, start_at := a, end_at := b }

/-- One committed active reservation on resource 1 for `[600, 660)`. -/
def activeRes : Reservation :=
  { id := 0, user_id := 7, server_resource_id := 1, title := "training",
    description := none, start_at := 600, end_at := 660,
    status := Status.active, google_event_id := none }

/-- A store holding `activeRes`. -/
def oneResStore : Store :=
  { resources := [⟨1, "gpu-server-1", true⟩], reservations := [activeRes],
    next_id := 1 }

/-- A reservation that is both cancelled and already elapsed. -/
def pastCancelledRes : Reservation :=
  { id := 0, user_id := 7, server_resource_id := 1, title := "training",
    description := none, start_at := 10, end_at := 20,
    status := Status.cancelled, google_event_id := none }

/-- A store holding `pastCancelledRes`. -/
def pastCancelledStore : Store :=
  { resources := [⟨1, "gpu-server-1", true⟩],
    reservations := [pastCancelledRes], next_id := 1 }

/-- An update request that re-submits `activeRes`'s own fields. -/
def selfUpdateReq : UpdateRequest :=
  { title := "training", description := none, start_at := 600, end_at := 660,
    server_resource_id := none }

/-- `activeRes` after cancellation. -/
def cancelledRes0 : Reservation := { activeRes with status := Status.cancelled }

/-- `oneResStore` after cancelling its reservation. -/
def cancelledStore : Store := { oneResStore with reservations := [cancelledRes0] }

/-- A server that answers 401 to every request. -/
def alwaysUnauthorized (_ : Nat) : Nat := 401

/-- A browser session holding a stale access token and a refresh token. -/
def seededBrowser : BrowserState :=
  { storage := { access_token := some "stale", refresh_token := some "seed" },
    location := none }

/-! ## Helper lemmas -/

theorem overlaps_comm (a b : TimeRange) : a.overlaps b = b.overlaps a := by
  simp only [TimeRange.overlaps]
  exact Bool.and_comm _ _

theorem hasConflict_none_iff (l : List Reservation) (rid : Nat) (c : TimeRange) :
    hasConflict l rid c none = true ↔
    ∃ r ∈ l, r.server_resource_id = rid ∧ r.status = Status.active ∧
      r.range.overlaps c = true := by
  simp [hasConflict, List.any_eq_true, and_assoc]

theorem hasConflict_some_iff (l : List Reservation) (rid : Nat) (c : TimeRange)
    (i : Nat) :
    hasConflict l rid c (some i) = true ↔
    ∃ r ∈ l, r.server_resource_id = rid ∧ r.status = Status.active ∧
      r.id ≠ i ∧ r.range.overlaps c = true := by
  simp [hasConflict, List.any_eq_true, and_assoc]

theorem hasConflict_none_false (l : List Reservation) (rid : Nat) (c : TimeRange)
    (h : hasConflict l rid c none = false) :
    ∀ r ∈ l, r.server_resource_id = rid → r.status = Status.active →
      r.range.overlaps c = false := by
  intro r hr hrid hst
  rw [← Bool.not_eq_true, hasConflict_none_iff] at h
  push_neg at h
  exact Bool.not_eq_true _ ▸ h r hr hrid hst

theorem hasConflict_some_false (l : List Reservation) (rid : Nat) (c : TimeRange)
    (i : Nat) (h : hasConflict l rid c (some i) = false) :
    ∀ r ∈ l, r.server_resource_id = rid → r.status = Status.active → r.id ≠ i →
      r.range.overlaps c = false := by
  intro r hr hrid hst hid
  rw [← Bool.not_eq_true, hasConflict_some_iff] at h
  push_neg at h
  exact Bool.not_eq_true _ ▸ h r hr hrid hst hid

/-- The reservation `create` inserts on success. -/
def createdRes (s : Store) (req : CreateRequest) : Reservation :=
  { id := s.next_id, user_id := req.user_id,
    server_resource_id := req.server_resource_id, title := req.title,
    description := req.description, start_at := req.start_at,
    end_at := req.end_at, status := Status.active, google_event_id := none }

theorem create_ok (s : Store) (req : CreateRequest) (s' : Store) (r : Reservation)
    (h : create s req = .ok (s', r)) :
    req.start_at < req.end_at ∧
    hasConflict s.reservations req.server_resource_id
      ⟨req.start_at, req.end_at⟩ none = false ∧
    r = createdRes s req ∧
    s' = { s with reservations := r :: s.reservations,
                  next_id := s.next_id + 1 } := by
  unfold create at h
  split at h
  · exact absurd h (by simp)
  · split at h
    · exact absurd h (by simp)
    · split at h
      · exact absurd h (by simp)
      · split at h
        · exact absurd h (by simp)
        · rename_i hval _ _ _ hconf
          simp only [Except.ok.injEq, Prod.mk.injEq] at h
          refine ⟨by omega, by simpa using hconf, ?_, ?_⟩
          · exact h.2.symm
          · rw [← h.1, ← h.2]

theorem create_ok_of (s : Store) (req : CreateRequest) (res : ServerResource)
    (h1 : req.start_at < req.end_at)
    (h2 : findResource s req.server_resource_id = some res)
    (h3 : res.is_active = true)
    (h4 : hasConflict s.reservations req.server_resource_id
      ⟨req.start_at, req.end_at⟩ none = false) :
    create s req =
      .ok ({ s with reservations := createdRes s req :: s.reservations,
                    next_id := s.next_id + 1 }, createdRes s req) := by
  unfold create
  rw [if_neg (not_not_intro h1), h2]
  dsimp only
  rw [if_neg (by simp [h3]), if_neg (by simp [h4])]
  rfl

/-- The reservation `update` commits on success, given the prior row `r`
and the target resource id. -/
def updatedRes (r : Reservation) (req : UpdateRequest) : Reservation :=
  { r with title := req.title, description := req.description,
           start_at := req.start_at, end_at := req.end_at,
           server_resource_id := req.server_resource_id.getD r.server_resource_id }

/-- In-place replacement of the row with id `i` by `r'`. -/
def replaceById (l : List Reservation) (i : Nat) (r' : Reservation) :
    List Reservation :=
  l.map fun x => if x.id = i then r' else x

theorem mem_replaceById {l : List Reservation} {i : Nat} {r' x : Reservation}
    (hx : x ∈ replaceById l i r') : x = r' ∨ (x ∈ l ∧ x.id ≠ i) := by
  rcases List.mem_map.1 hx with ⟨y, hy, hmap⟩
  by_cases h : y.id = i
  · rw [if_pos h] at hmap
    exact Or.inl hmap.symm
  · rw [if_neg h] at hmap
    exact Or.inr ⟨hmap ▸ hy, hmap ▸ h⟩

theorem update_ok (s : Store) (now : Int) (reservationId requesterId : Nat)
    (role : Role) (req : UpdateRequest) (s' : Store) (r' : Reservation)
    (h : update s now reservationId requesterId role req = .ok (s', r')) :
    req.start_at < req.end_at ∧
    ∃ r, findReservation s reservationId = some r ∧
      isOwnerOrAdmin r requesterId role = true ∧
      now < r.end_at ∧
      hasConflict s.reservations (req.server_resource_id.getD r.server_resource_id)
        ⟨req.start_at, req.end_at⟩ (some r.id) = false ∧
      r' = updatedRes r req ∧
      s' = { s with reservations := replaceById s.reservations r.id r' } := by
  unfold update at h
  split at h
  · exact absurd h (by simp)
  · split at h
    · exact absurd h (by simp)
    · rename_i hval r hfind
      split at h
      · exact absurd h (by simp)
      · split at h
        · exact absurd h (by simp)
        · dsimp only at h
          split at h
          · exact absurd h (by simp)
          · split at h
            · exact absurd h (by simp)
            · split at h
              · exact absurd h (by simp)
              · simp only [not_not, not_le, Bool.not_eq_true, Bool.not_eq_false] at *
                simp only [Except.ok.injEq, Prod.mk.injEq] at h
                refine ⟨by omega, r, hfind, by assumption, by omega,
                  by assumption, h.2.symm, ?_⟩
                rw [← h.1, ← h.2]
                rfl

theorem update_ok_of (s : Store) (now : Int) (reservationId requesterId : Nat)
    (role : Role) (req : UpdateRequest) (r : Reservation) (res : ServerResource)
    (h1 : req.start_at < req.end_at)
    (h2 : findReservation s reservationId = some r)
    (h3 : isOwnerOrAdmin r requesterId role = true)
    (h4 : now < r.end_at)
    (h5 : findResource s (req.server_resource_id.getD r.server_resource_id) = some res)
    (h6 : res.is_active = true)
    (h7 : hasConflict s.reservations (req.server_resource_id.getD r.server_resource_id)
      ⟨req.start_at, req.end_at⟩ (some r.id) = false) :
    update s now reservationId requesterId role req =
      .ok ({ s with reservations := replaceById s.reservations r.id (updatedRes r req) },
           updatedRes r req) := by
  unfold update
  rw [if_neg (not_not_intro h1), h2]
  dsimp only
  rw [if_neg (by simp [h3]), if_neg (by omega), h5]
  dsimp only
  rw [if_neg (by simp [h6]), if_neg (by simp [h7])]
  rfl

theorem cancel_ok (s : Store) (now : Int) (reservationId requesterId : Nat)
    (role : Role) (s' : Store) (r' : Reservation)
    (h : cancel s now reservationId requesterId role = .ok (s', r')) :
    ∃ r, findReservation s reservationId = some r ∧
      isOwnerOrAdmin r requesterId role = true ∧
      ((r.status = Status.cancelled ∧ s' = s ∧ r' = r) ∨
       (r.status = Status.active ∧ now < r.end_at ∧
        r' = { r with status := Status.cancelled } ∧
        s' = { s with reservations := replaceById s.reservations r.id r' })) := by
  unfold cancel at h
  split at h
  · exact absurd h (by simp)
  · rename_i r hfind
    split at h
    · exact absurd h (by simp)
    · split at h
      · rename_i hown hcanc
        simp only [Except.ok.injEq, Prod.mk.injEq] at h
        exact ⟨r, hfind, by simpa using hown,
          Or.inl ⟨hcanc, h.1.symm, h.2.symm⟩⟩
      · split at h
        · exact absurd h (by simp)
        · rename_i hown hcanc hpast
          simp only [Except.ok.injEq, Prod.mk.injEq] at h
          refine ⟨r, hfind, by simpa using hown, Or.inr ⟨?_, by omega, h.2.symm, ?_⟩⟩
          · cases hst : r.status with
            | active => rfl
            | cancelled => exact absurd hst hcanc
          · rw [← h.1, ← h.2]
            rfl

theorem findReservation_mem {s : Store} {i : Nat} {r : Reservation}
    (h : findReservation s i = some r) : r ∈ s.reservations := by
  unfold findReservation at h
  exact List.mem_of_find?_eq_some h

theorem findReservation_id {s : Store} {i : Nat} {r : Reservation}
    (h : findReservation s i = some r) : r.id = i := by
  unfold findReservation at h
  have := List.find?_some h
  simpa using this

theorem noOverlap_create {s : Store} {req : CreateRequest} {s' : Store}
    {r : Reservation} (h : NoOverlap s.reservations)
    (hc : create s req = .ok (s', r)) : NoOverlap s'.reservations := by
  obtain ⟨hv, hconf, hr, hs'⟩ := create_ok s req s' r hc
  subst hs'
  intro a ha b hb hid hres hsa hsb
  simp only [List.mem_cons] at ha hb
  have hcand : ∀ x ∈ s.reservations, x.server_resource_id = req.server_resource_id →
      x.status = Status.active →
      TimeRange.overlaps x.range ⟨req.start_at, req.end_at⟩ = false :=
    hasConflict_none_false _ _ _ hconf
  have hrr : r.range = ⟨req.start_at, req.end_at⟩ := by rw [hr]; rfl
  have hrres : r.server_resource_id = req.server_resource_id := by rw [hr]; rfl
  rcases ha with rfl | ha' <;> rcases hb with rfl | hb'
  · exact absurd rfl hid
  · rw [hrr, overlaps_comm]
    exact hcand b hb' (by rw [← hres, hrres]) hsb
  · rw [hrr]
    exact hcand a ha' (by rw [hres, hrres]) hsa
  · exact h a ha' b hb' hid hres hsa hsb

theorem noOverlap_update {s : Store} {now : Int}
    {reservationId requesterId : Nat} {role : Role} {req : UpdateRequest}
    {s' : Store} {r' : Reservation} (h : NoOverlap s.reservations)
    (hc : update s now reservationId requesterId role req = .ok (s', r')) :
    NoOverlap s'.reservations := by
  obtain ⟨hv, r, hfind, hown, hpast, hconf, hr', hs'⟩ :=
    update_ok s now reservationId requesterId role req s' r' hc
  subst hs'
  intro a ha b hb hid hres hsa hsb
  have hcand : ∀ x ∈ s.reservations,
      x.server_resource_id = req.server_resource_id.getD r.server_resource_id →
      x.status = Status.active → x.id ≠ r.id →
      TimeRange.overlaps x.range ⟨req.start_at, req.end_at⟩ = false :=
    hasConflict_some_false _ _ _ _ hconf
  have hrr : r'.range = ⟨req.start_at, req.end_at⟩ := by rw [hr']; rfl
  have hrres : r'.server_resource_id = req.server_resource_id.getD r.server_resource_id := by
    rw [hr']; rfl
  have hrid : r'.id = r.id := by rw [hr']; rfl
  rcases mem_replaceById ha with rfl | ⟨ha', hida⟩ <;>
    rcases mem_replaceById hb with rfl | ⟨hb', hidb⟩
  · exact absurd rfl hid
  · rw [hrr, overlaps_comm]
    exact hcand b hb' (by rw [← hres, hrres]) hsb (by rw [← hrid]; exact hid.symm)
  · rw [hrr]
    exact hcand a ha' (by rw [hres, hrres]) hsa (by rw [← hrid]; exact hid)
  · exact h a ha' b hb' hid hres hsa hsb

theorem noOverlap_cancel {s : Store} {now : Int}
    {reservationId requesterId : Nat} {role : Role} {s' : Store}
    {r' : Reservation} (h : NoOverlap s.reservations)
    (hc : cancel s now reservationId requesterId role = .ok (s', r')) :
    NoOverlap s'.reservations := by
  obtain ⟨r, hfind, hown, hcase⟩ := cancel_ok s now reservationId requesterId role s' r' hc
  rcases hcase with ⟨hst, rfl, rfl⟩ | ⟨hst, hpast, hr', hs'⟩
  · exact h
  · subst hs'
    intro a ha b hb hid hres hsa hsb
    rcases mem_replaceById ha with rfl | ⟨ha', hida⟩
    · rw [hr'] at hsa
      exact absurd hsa (by simp)
    · rcases mem_replaceById hb with rfl | ⟨hb', hidb⟩
      · rw [hr'] at hsb
        exact absurd hsb (by simp)
      · exact h a ha' b hb' hid hres hsa hsb

theorem validRanges_create {s : Store} {req : CreateRequest} {s' : Store}
    {r : Reservation} (h : ValidRanges s.reservations)
    (hc : create s req = .ok (s', r)) : ValidRanges s'.reservations := by
  obtain ⟨hv, hconf, hr, hs'⟩ := create_ok s req s' r hc
  subst hs'
  intro x hx
  simp only [List.mem_cons] at hx
  rcases hx with rfl | hx'
  · rw [hr]
    exact hv
  · exact h x hx'

theorem validRanges_update {s : Store} {now : Int}
    {reservationId requesterId : Nat} {role : Role} {req : UpdateRequest}
    {s' : Store} {r' : Reservation} (h : ValidRanges s.reservations)
    (hc : update s now reservationId requesterId role req = .ok (s', r')) :
    ValidRanges s'.reservations := by
  obtain ⟨hv, r, hfind, hown, hpast, hconf, hr', hs'⟩ :=
    update_ok s now reservationId requesterId role req s' r' hc
  subst hs'
  intro x hx
  rcases mem_replaceById hx with rfl | ⟨hx', _⟩
  · rw [hr']
    exact hv
  · exact h x hx'

theorem validRanges_cancel {s : Store} {now : Int}
    {reservationId requesterId : Nat} {role : Role} {s' : Store}
    {r' : Reservation} (h : ValidRanges s.reservations)
    (hc : cancel s now reservationId requesterId role = .ok (s', r')) :
    ValidRanges s'.reservations := by
  obtain ⟨r, hfind, hown, hcase⟩ := cancel_ok s now reservationId requesterId role s' r' hc
  rcases hcase with ⟨hst, rfl, rfl⟩ | ⟨hst, hpast, hr', hs'⟩
  · exact h
  · subst hs'
    intro x hx
    rcases mem_replaceById hx with rfl | ⟨hx', _⟩
    · rw [hr']
      exact h r (findReservation_mem hfind)
    · exact h x hx'

theorem create_resources_eq {s : Store} {req : CreateRequest} {s' : Store}
    {r : Reservation} (hc : create s req = .ok (s', r)) :
    s'.resources = s.resources := by
  obtain ⟨_, _, _, hs'⟩ := create_ok s req s' r hc
  rw [hs']

/-- Once a later create conflicts with a committed active reservation
`r0` of the batch's resource, every remaining request fails. -/
theorem runCreates_all_fail (rid : Nat) (r0 : Reservation)
    (hst : r0.status = Status.active) (hres : r0.server_resource_id = rid) :
    ∀ (qs : List CreateRequest) (s : Store), r0 ∈ s.reservations →
      (∀ q ∈ qs, q.server_resource_id = rid ∧
        TimeRange.overlaps r0.range ⟨q.start_at, q.end_at⟩ = true) →
      (runCreates s qs).1.count true = 0
  | [], s, _, _ => by simp [runCreates]
  | q :: qs, s, hmem, hall => by
    have hq := hall q (List.mem_cons_self q qs)
    have hfail : ∀ s' r, create s q ≠ .ok (s', r) := by
      intro s' r hok
      obtain ⟨_, hconf, _, _⟩ := create_ok s q s' r hok
      have := hasConflict_none_false _ _ _ hconf r0 hmem (hq.1 ▸ hres) hst
      rw [hq.2] at this
      exact Bool.noConfusion this
    unfold runCreates
    rcases hcr : create s q with e | ⟨s', r⟩
    · simp only [hcr]
      have := runCreates_all_fail rid r0 hst hres qs s hmem
        (fun q' hq' => hall q' (List.mem_cons_of_mem q hq'))
      simpa [List.count_cons] using this
    · exact absurd hcr (hfail s' r)

theorem tstzrangeOverlap_of_valid {a b : TimeRange} (ha : a.valid = true)
    (hb : b.valid = true) : tstzrangeOverlap a b = TimeRange.overlaps a b := by
  simp [tstzrangeOverlap, TimeRange.overlaps, ha, hb]

theorem dbExcludeViolation_iff (l : List Reservation) (rid : Nat) (c : TimeRange) :
    dbExcludeViolation l rid c = true ↔
    ∃ r ∈ l, r.server_resource_id = rid ∧ r.status = Status.active ∧
      tstzrangeOverlap r.range c = true := by
  simp [dbExcludeViolation, List.any_eq_true, and_assoc]

theorem hasConflict_cons (r0 : Reservation) (l : List Reservation) (rid : Nat)
    (c : TimeRange) :
    hasConflict (r0 :: l) rid c none =
      (decide (r0.server_resource_id = rid) && decide (r0.status = Status.active) &&
        TimeRange.overlaps r0.range c || hasConflict l rid c none) := by
  simp [hasConflict, List.any_cons, Bool.and_assoc]

/-! ## Claims -/

/-- C1: for a fixed resource, no two distinct active reservations have
overlapping half-open time ranges (overlap: `a.start < b.end AND
b.start < a.end`); every operation — create, update, cancel — preserves
this invariant on every state satisfying it; and of N concurrently
submitted overlapping booking requests for one resource, executed in
acquisition order under the resource-scoped exclusive access, exactly
one succeeds. -/
theorem claim1_mutual_exclusion :
    (∀ (s : Store) (req : CreateRequest) (s' : Store) (r : Reservation),
      NoOverlap s.reservations → create s req = .ok (s', r) →
      NoOverlap s'.reservations) ∧
    (∀ (s : Store) (now : Int) (i u : Nat) (role : Role) (req : UpdateRequest)
      (s' : Store) (r' : Reservation),
      NoOverlap s.reservations → update s now i u role req = .ok (s', r') →
      NoOverlap s'.reservations) ∧
    (∀ (s : Store) (now : Int) (i u : Nat) (role : Role) (s' : Store)
      (r' : Reservation),
      NoOverlap s.reservations → cancel s now i u role = .ok (s', r') →
      NoOverlap s'.reservations) ∧
    (∀ (s : Store) (rid : Nat) (res : ServerResource) (reqs : List CreateRequest),
      findResource s rid = some res → res.is_active = true → reqs ≠ [] →
      (∀ q ∈ reqs, q.server_resource_id = rid ∧ q.start_at < q.end_at ∧
        hasConflict s.reservations rid ⟨q.start_at, q.end_at⟩ none = false) →
      (∀ q ∈ reqs, ∀ q' ∈ reqs,
        TimeRange.overlaps ⟨q.start_at, q.end_at⟩ ⟨q'.start_at, q'.end_at⟩ = true) →
      (runCreates s reqs).1.count true = 1) := by
  refine ⟨fun s req s' r h hc => noOverlap_create h hc,
    fun s now i u role req s' r' h hc => noOverlap_update h hc,
    fun s now i u role s' r' h hc => noOverlap_cancel h hc,
    ?_⟩
  intro s rid res reqs hfind hact hne hall hpair
  rcases reqs with _ | ⟨q0, qs⟩
  · exact absurd rfl hne
  · obtain ⟨hq0res, hq0v, hq0conf⟩ := hall q0 (List.mem_cons_self q0 qs)
    have hok : create s q0 =
        .ok ({ s with reservations := createdRes s q0 :: s.reservations,
                      next_id := s.next_id + 1 }, createdRes s q0) :=
      create_ok_of s q0 res hq0v (hq0res ▸ hfind) hact (hq0res ▸ hq0conf)
    have hzero :
        (runCreates { s with reservations := createdRes s q0 :: s.reservations,
                             next_id := s.next_id + 1 } qs).1.count true = 0 := by
      refine runCreates_all_fail rid (createdRes s q0) rfl hq0res qs _
        (List.mem_cons_self _ _) ?_
      intro q hq
      refine ⟨(hall q (List.mem_cons_of_mem q0 hq)).1, ?_⟩
      have := hpair q0 (List.mem_cons_self q0 qs) q (List.mem_cons_of_mem q0 hq)
      simpa [createdRes, Reservation.range] using this
    unfold runCreates
    rw [hok]
    simpa [List.count_cons] using hzero

/-- C1 witness: concrete instances of all four conjuncts — invariant
preservation by a concrete create, self-update and cancel, and a batch
of two overlapping concurrent requests of which exactly one wins. -/
theorem claim1_witness :
    NoOverlap oneResStore.reservations ∧
    NoOverlap oneResStore.reservations ∧
    NoOverlap cancelledStore.reservations ∧
    (runCreates emptyStore [reqFor 600 660, reqFor 630 690]).1.count true = 1 :=
  ⟨claim1_mutual_exclusion.1 emptyStore (reqFor 600 660) oneResStore activeRes
      (by unfold NoOverlap; decide) rfl,
   claim1_mutual_exclusion.2.1 oneResStore 0 0 7 Role.user selfUpdateReq
      oneResStore activeRes (by unfold NoOverlap; decide) rfl,
   claim1_mutual_exclusion.2.2.1 oneResStore 0 0 7 Role.user cancelledStore
      cancelledRes0 (by unfold NoOverlap; decide) rfl,
   claim1_mutual_exclusion.2.2.2 emptyStore 1 ⟨1, "gpu-server-1", true⟩
      [reqFor 600 660, reqFor 630 690] (by decide) (by decide) (by decide)
      (by decide) (by decide)⟩

/-- C2: over states respecting the `CHECK` range constraint, the
application-level conflict detector and the storage-level exclusion
constraint are the same decider of conflict for any candidate insert;
and each layer alone suffices to preserve the no-double-booking
invariant when it is the one that rejects. -/
theorem claim2_dual_enforcement :
    (∀ (l : List Reservation) (rid : Nat) (c : TimeRange),
      ValidRanges l → c.valid = true →
      hasConflict l rid c none = dbExcludeViolation l rid c) ∧
    (∀ (l : List Reservation) (n : Reservation), NoOverlap l →
      hasConflict l n.server_resource_id n.range none = false →
      NoOverlap (n :: l)) ∧
    (∀ (l : List Reservation) (n : Reservation), NoOverlap l →
      ValidRanges (n :: l) →
      dbExcludeViolation l n.server_resource_id n.range = false →
      NoOverlap (n :: l)) := by
  refine ⟨?_, ?_, ?_⟩
  · intro l rid c hv hc
    have key : hasConflict l rid c none = true ↔
        dbExcludeViolation l rid c = true := by
      rw [hasConflict_none_iff, dbExcludeViolation_iff]
      constructor
      · rintro ⟨r, hr, h1, h2, h3⟩
        refine ⟨r, hr, h1, h2, ?_⟩
        rwa [tstzrangeOverlap_of_valid
          (by simpa [TimeRange.valid, Reservation.range] using hv r hr) hc]
      · rintro ⟨r, hr, h1, h2, h3⟩
        refine ⟨r, hr, h1, h2, ?_⟩
        rwa [tstzrangeOverlap_of_valid
          (by simpa [TimeRange.valid, Reservation.range] using hv r hr) hc] at h3
    cases h1 : hasConflict l rid c none
    · cases h2 : dbExcludeViolation l rid c
      · rfl
      · exact absurd (key.mpr h2) (by rw [h1]; exact Bool.false_ne_true)
    · exact (key.mp h1).symm
  · intro l n h hconf a ha b hb hid hres hsa hsb
    have hcand := hasConflict_none_false _ _ _ hconf
    simp only [List.mem_cons] at ha hb
    rcases ha with rfl | ha' <;> rcases hb with rfl | hb'
    · exact absurd rfl hid
    · rw [overlaps_comm]
      exact hcand b hb' hres.symm hsb
    · exact hcand a ha' hres hsa
    · exact h a ha' b hb' hid hres hsa hsb
  · intro l n h hvAll hdb a ha b hb hid hres hsa hsb
    have hvn : n.range.valid = true := by
      simpa [TimeRange.valid, Reservation.range]
        using hvAll n (List.mem_cons_self n l)
    have hcand : ∀ x ∈ l, x.server_resource_id = n.server_resource_id →
        x.status = Status.active →
        TimeRange.overlaps x.range n.range = false := by
      intro x hx hxr hxs
      cases hov : TimeRange.overlaps x.range n.range
      · rfl
      · exfalso
        have hvx : x.range.valid = true := by
          simpa [TimeRange.valid, Reservation.range]
            using hvAll x (List.mem_cons_of_mem n hx)
        have : dbExcludeViolation l n.server_resource_id n.range = true :=
          (dbExcludeViolation_iff l n.server_resource_id n.range).mpr
            ⟨x, hx, hxr, hxs, by rwa [tstzrangeOverlap_of_valid hvx hvn]⟩
        exact absurd this (by rw [hdb]; exact Bool.false_ne_true)
    simp only [List.mem_cons] at ha hb
    rcases ha with rfl | ha' <;> rcases hb with rfl | hb'
    · exact absurd rfl hid
    · rw [overlaps_comm]
      exact hcand b hb' hres.symm hsb
    · exact hcand a ha' hres hsa
    · exact h a ha' b hb' hid hres hsa hsb

/-- C2 witness: on a concrete one-reservation state both layers decide a
concrete overlapping candidate identically, and each layer alone
certifies a concrete non-conflicting insert. -/
theorem claim2_witness :
    hasConflict [activeRes] 1 ⟨630, 690⟩ none =
      dbExcludeViolation [activeRes] 1 ⟨630, 690⟩ ∧
    NoOverlap
      ({ activeRes with id := 1, start_at := 700, end_at := 760 } :: [activeRes]) ∧
    NoOverlap
      ({ activeRes with id := 1, start_at := 700, end_at := 760 } :: [activeRes]) :=
  ⟨claim2_dual_enforcement.1 [activeRes] 1 ⟨630, 690⟩
      (by unfold ValidRanges; decide) (by decide),
   claim2_dual_enforcement.2.1 [activeRes]
      { activeRes with id := 1, start_at := 700, end_at := 760 }
      (by unfold NoOverlap; decide) (by decide),
   claim2_dual_enforcement.2.2 [activeRes]
      { activeRes with id := 1, start_at := 700, end_at := 760 }
      (by unfold NoOverlap; decide) (by unfold ValidRanges; decide) (by decide)⟩

/-- C3: touching half-open ranges (`A.end == B.start`) never conflict —
back-to-back bookings on one resource both succeed — while shifting
either endpoint by one unit of time so the ranges properly intersect
makes the conflict check report a conflict. -/
theorem claim3_exclusion_boundary :
    (∀ a e c : Int, TimeRange.overlaps ⟨a, e⟩ ⟨e, c⟩ = false) ∧
    (∀ a e c : Int, a < e → e < c →
      TimeRange.overlaps ⟨a, e + 1⟩ ⟨e, c⟩ = true ∧
      TimeRange.overlaps ⟨a, e⟩ ⟨e - 1, c⟩ = true) ∧
    (∀ (s : Store) (rid : Nat) (res : ServerResource) (q1 q2 : CreateRequest),
      findResource s rid = some res → res.is_active = true →
      q1.server_resource_id = rid → q2.server_resource_id = rid →
      q1.start_at < q1.end_at → q2.start_at < q2.end_at →
      q1.end_at = q2.start_at →
      hasConflict s.reservations rid ⟨q1.start_at, q1.end_at⟩ none = false →
      hasConflict s.reservations rid ⟨q2.start_at, q2.end_at⟩ none = false →
      ∃ s1 r1 s2 r2, create s q1 = .ok (s1, r1) ∧ create s1 q2 = .ok (s2, r2)) := by
  refine ⟨?_, ?_, ?_⟩
  · intro a e c
    simp [TimeRange.overlaps]
  · intro a e c h1 h2
    constructor <;> (simp [TimeRange.overlaps]; omega)
  · intro s rid res q1 q2 hfind hact h1r h2r h1v h2v htouch hc1 hc2
    have hok1 := create_ok_of s q1 res h1v (h1r ▸ hfind) hact (h1r ▸ hc1)
    have hov : TimeRange.overlaps ⟨q1.start_at, q1.end_at⟩
        ⟨q2.start_at, q2.end_at⟩ = false := by
      simp only [TimeRange.overlaps]
      have : ¬ q2.start_at < q1.end_at := by omega
      simp [this]
    have hc2' : hasConflict (createdRes s q1 :: s.reservations) rid
        ⟨q2.start_at, q2.end_at⟩ none = false := by
      rw [hasConflict_cons]
      have hhead : TimeRange.overlaps (createdRes s q1).range
          ⟨q2.start_at, q2.end_at⟩ = false := hov
      simp [hhead, hc2]
    have hok2 := create_ok_of
      { s with reservations := createdRes s q1 :: s.reservations,
               next_id := s.next_id + 1 } q2 res h2v (h2r ▸ hfind) hact
      (h2r ▸ hc2')
    exact ⟨_, _, _, _, hok1, hok2⟩

/-- C3 witness: `[09:00,10:00)` then `[10:00,11:00)` (in minutes) both
book on the empty store, the touching ranges report no overlap, and the
one-unit shifts each report an overlap. -/
theorem claim3_witness :
    TimeRange.overlaps ⟨540, 600⟩ ⟨600, 660⟩ = false ∧
    (TimeRange.overlaps ⟨540, 600 + 1⟩ ⟨600, 660⟩ = true ∧
     TimeRange.overlaps ⟨540, 600⟩ ⟨600 - 1, 660⟩ = true) ∧
    (∃ s1 r1 s2 r2, create emptyStore (reqFor 540 600) = .ok (s1, r1) ∧
      create s1 (reqFor 600 660) = .ok (s2, r2)) :=
  ⟨claim3_exclusion_boundary.1 540 600 660,
   claim3_exclusion_boundary.2.1 540 600 660 (by decide) (by decide),
   claim3_exclusion_boundary.2.2 emptyStore 1 ⟨1, "gpu-server-1", true⟩
      (reqFor 540 600) (reqFor 600 660) (by decide) rfl rfl rfl (by decide)
      (by decide) rfl (by decide) (by decide)⟩

theorem find?_replaceById (l : List Reservation) (i : Nat) (r r' : Reservation)
    (h : l.find? (fun x => decide (x.id = i)) = some r) (hid : r'.id = r.id) :
    (replaceById l r.id r').find? (fun x => decide (x.id = i)) = some r' := by
  induction l with
  | nil => simp at h
  | cons y ys ih =>
    by_cases hy : y.id = i
    · rw [List.find?_cons_of_pos _ (by simp [hy])] at h
      have hyr : y = r := by injection h
      subst hyr
      simp only [replaceById, List.map_cons]
      rw [if_pos trivial, List.find?_cons_of_pos _ (by simp [hid, hy])]
    · rw [List.find?_cons_of_neg _ (by simp [hy])] at h
      have hri : r.id = i := by simpa using List.find?_some h
      simp only [replaceById, List.map_cons, if_neg (hri ▸ hy)]
      rw [List.find?_cons_of_neg _ (by simp [hy])]
      exact ih h

/-- C4: on every successful update the conflict check has been re-run
with the reservation's own prior row excluded from the overlap set
(soundness); when the excluded-self check passes together with the
guards, the update commits (completeness); in particular an active
reservation's update to its own unchanged range always succeeds in any
state satisfying the no-overlap invariant. -/
theorem claim4_update_self_exclusion :
    (∀ (s : Store) (now : Int) (i u : Nat) (role : Role) (req : UpdateRequest)
       (s' : Store) (r' r : Reservation),
      findReservation s i = some r →
      update s now i u role req = .ok (s', r') →
      hasConflict s.reservations (req.server_resource_id.getD r.server_resource_id)
        ⟨req.start_at, req.end_at⟩ (some r.id) = false) ∧
    (∀ (s : Store) (now : Int) (i u : Nat) (role : Role) (req : UpdateRequest)
       (r : Reservation) (res : ServerResource),
      findReservation s i = some r → isOwnerOrAdmin r u role = true →
      now < r.end_at → req.start_at < req.end_at →
      findResource s (req.server_resource_id.getD r.server_resource_id) = some res →
      res.is_active = true →
      hasConflict s.reservations (req.server_resource_id.getD r.server_resource_id)
        ⟨req.start_at, req.end_at⟩ (some r.id) = false →
      update s now i u role req =
        .ok ({ s with reservations :=
                 replaceById s.reservations r.id (updatedRes r req) },
             updatedRes r req)) ∧
    (∀ (s : Store) (now : Int) (i u : Nat) (role : Role) (req : UpdateRequest)
       (r : Reservation) (res : ServerResource),
      NoOverlap s.reservations → r.status = Status.active →
      findReservation s i = some r → isOwnerOrAdmin r u role = true →
      now < r.end_at →
      req.start_at = r.start_at → req.end_at = r.end_at →
      req.server_resource_id = none →
      r.start_at < r.end_at →
      findResource s r.server_resource_id = some res → res.is_active = true →
      update s now i u role req =
        .ok ({ s with reservations :=
                 replaceById s.reservations r.id (updatedRes r req) },
             updatedRes r req)) := by
  refine ⟨?_, ?_, ?_⟩
  · intro s now i u role req s' r' r hfind hup
    obtain ⟨hv, r0, hfind0, hown, hpast, hconf, _, _⟩ :=
      update_ok s now i u role req s' r' hup
    have : r0 = r := by rw [hfind0] at hfind; injection hfind
    exact this ▸ hconf
  · intro s now i u role req r res hfind hown hpast hv hres hact hconf
    exact update_ok_of s now i u role req r res hv hfind hown hpast hres hact hconf
  · intro s now i u role req r res hno hst hfind hown hpast hqs hqe hqr hrv hres hact
    have hconf : hasConflict s.reservations
        (req.server_resource_id.getD r.server_resource_id)
        ⟨req.start_at, req.end_at⟩ (some r.id) = false := by
      cases hcf : hasConflict s.reservations
          (req.server_resource_id.getD r.server_resource_id)
          ⟨req.start_at, req.end_at⟩ (some r.id)
      · rfl
      · exfalso
        obtain ⟨x, hx, hxr, hxs, hxid, hxov⟩ :=
          (hasConflict_some_iff _ _ _ _).mp hcf
        have hfr : TimeRange.overlaps x.range r.range = false :=
          hno x hx r (findReservation_mem hfind) hxid
            (by rw [hxr, hqr]; rfl) hxs hst
        rw [hqs, hqe] at hxov
        have : TimeRange.overlaps x.range r.range = true := hxov
        rw [hfr] at this
        exact Bool.noConfusion this
    exact update_ok_of s now i u role req r res (by omega) hfind hown hpast
      (by simpa [hqr] using hres) hact hconf

/-- C4 witness: re-submitting `activeRes`'s own fields on `oneResStore`
succeeds, with all three conjuncts instantiated on that concrete case. -/
theorem claim4_witness :
    hasConflict oneResStore.reservations
      (selfUpdateReq.server_resource_id.getD activeRes.server_resource_id)
      ⟨selfUpdateReq.start_at, selfUpdateReq.end_at⟩ (some activeRes.id) = false ∧
    update oneResStore 0 0 7 Role.user selfUpdateReq = .ok (oneResStore, activeRes) ∧
    update oneResStore 0 0 7 Role.user selfUpdateReq = .ok (oneResStore, activeRes) :=
  ⟨claim4_update_self_exclusion.1 oneResStore 0 0 7 Role.user selfUpdateReq
      oneResStore activeRes activeRes rfl rfl,
   claim4_update_self_exclusion.2.1 oneResStore 0 0 7 Role.user selfUpdateReq
      activeRes ⟨1, "gpu-server-1", true⟩ rfl (by decide) (by decide) (by decide)
      rfl (by decide) (by decide),
   claim4_update_self_exclusion.2.2 oneResStore 0 0 7 Role.user selfUpdateReq
      activeRes ⟨1, "gpu-server-1", true⟩ (by unfold NoOverlap; decide)
      (by decide) rfl (by decide) (by decide) (by decide) (by decide) rfl
      (by decide) rfl (by decide)⟩

/-- C5: cancel is a status change, never a deletion; cancelling an
already-cancelled reservation (by its owner or an administrator) returns
success and leaves the state unchanged; and cancel is idempotent —
a second cancel reproduces the first's successful result exactly. -/
theorem claim5_cancel_idempotent :
    (∀ (s : Store) (now : Int) (i u : Nat) (role : Role) (r : Reservation),
      findReservation s i = some r → isOwnerOrAdmin r u role = true →
      r.status = Status.cancelled →
      cancel s now i u role = .ok (s, r)) ∧
    (∀ (s : Store) (now : Int) (i u : Nat) (role : Role) (s1 : Store)
       (r1 : Reservation),
      cancel s now i u role = .ok (s1, r1) →
      cancel s1 now i u role = .ok (s1, r1)) ∧
    (∀ (s : Store) (now : Int) (i u : Nat) (role : Role) (s1 : Store)
       (r1 : Reservation),
      cancel s now i u role = .ok (s1, r1) →
      s1.reservations.map Reservation.id = s.reservations.map Reservation.id) := by
  have noop : ∀ (s : Store) (now : Int) (i u : Nat) (role : Role) (r : Reservation),
      findReservation s i = some r → isOwnerOrAdmin r u role = true →
      r.status = Status.cancelled → cancel s now i u role = .ok (s, r) := by
    intro s now i u role r hfind hown hst
    unfold cancel
    rw [hfind]
    dsimp only
    rw [if_neg (by simp [hown]), if_pos hst]
  refine ⟨noop, ?_, ?_⟩
  · intro s now i u role s1 r1 h
    obtain ⟨r, hfind, hown, hcase⟩ := cancel_ok s now i u role s1 r1 h
    rcases hcase with ⟨hst, rfl, rfl⟩ | ⟨hst, hpast, hr1, hs1⟩
    · exact h
    · have hfind1 : findReservation s1 i = some r1 := by
        rw [hs1]
        unfold findReservation at hfind ⊢
        exact find?_replaceById s.reservations i r r1 hfind (by rw [hr1])
      have hown1 : isOwnerOrAdmin r1 u role = true := by
        rw [hr1]
        simpa [isOwnerOrAdmin] using hown
      exact noop s1 now i u role r1 hfind1 hown1 (by rw [hr1])
  · intro s now i u role s1 r1 h
    obtain ⟨r, hfind, hown, hcase⟩ := cancel_ok s now i u role s1 r1 h
    rcases hcase with ⟨hst, rfl, rfl⟩ | ⟨hst, hpast, hr1, hs1⟩
    · rfl
    · rw [hs1]
      simp only [replaceById, List.map_map]
      refine List.map_congr_left ?_
      intro x hx
      by_cases hxid : x.id = r.id
      · simp [Function.comp, hxid, hr1]
      · simp [Function.comp, hxid]

/-- C5 witness: the concrete cancel on `oneResStore` commits
`cancelledStore`; repeating it returns the same success unchanged; the
already-cancelled past reservation cancels as a no-op success; and the
row set (by id) is preserved — nothing is deleted. -/
theorem claim5_witness :
    cancel pastCancelledStore 100 0 7 Role.user =
      .ok (pastCancelledStore, pastCancelledRes) ∧
    cancel cancelledStore 0 0 7 Role.user = .ok (cancelledStore, cancelledRes0) ∧
    cancelledStore.reservations.map Reservation.id =
      oneResStore.reservations.map Reservation.id :=
  ⟨claim5_cancel_idempotent.1 pastCancelledStore 100 0 7 Role.user
      pastCancelledRes rfl (by decide) (by decide),
   claim5_cancel_idempotent.2.1 oneResStore 0 0 7 Role.user cancelledStore
      cancelledRes0 rfl,
   claim5_cancel_idempotent.2.2 oneResStore 0 0 7 Role.user cancelledStore
      cancelledRes0 rfl⟩

/-- C6 counterexample: a reservation that is both already elapsed
(`end_at = 20 ≤ now = 100`) and already cancelled. The claim demands
that its cancel fail with `PastReservation`; instead the idempotence
guarantee takes precedence and the cancel is a no-op success. -/
theorem claim6_counterexample :
    pastCancelledRes.end_at ≤ 100 ∧
    cancel pastCancelledStore 100 0 7 Role.user =
      .ok (pastCancelledStore, pastCancelledRes) ∧
    cancel pastCancelledStore 100 0 7 Role.user ≠
      .error BookingError.PastReservation := by
  refine ⟨by decide, rfl, ?_⟩
  intro h
  have h1 : cancel pastCancelledStore 100 0 7 Role.user =
      .ok (pastCancelledStore, pastCancelledRes) := rfl
  rw [h1] at h
  exact Except.noConfusion h

/-- C6 (amended): for a reservation whose end time has already passed,
an update with a well-formed requested range fails with
`PastReservation`, a cancel fails with `PastReservation` unless the
reservation is already cancelled — in which case the idempotence
guarantee returns success with the state unchanged — and reading the
reservation still succeeds. Failing operations return no new state, so
the reservation is left unchanged. -/
theorem claim6_past_guard :
    (∀ (s : Store) (now : Int) (i u : Nat) (role : Role) (req : UpdateRequest)
       (r : Reservation),
      findReservation s i = some r → isOwnerOrAdmin r u role = true →
      req.start_at < req.end_at → r.end_at ≤ now →
      update s now i u role req = .error BookingError.PastReservation) ∧
    (∀ (s : Store) (now : Int) (i u : Nat) (role : Role) (r : Reservation),
      findReservation s i = some r → isOwnerOrAdmin r u role = true →
      r.status = Status.active → r.end_at ≤ now →
      cancel s now i u role = .error BookingError.PastReservation) ∧
    (∀ (s : Store) (now : Int) (i u : Nat) (role : Role) (r : Reservation),
      findReservation s i = some r → isOwnerOrAdmin r u role = true →
      r.status = Status.cancelled → r.end_at ≤ now →
      cancel s now i u role = .ok (s, r)) ∧
    (∀ (s : Store) (i : Nat) (r : Reservation),
      findReservation s i = some r → getReservation s i = .ok r) := by
  refine ⟨?_, ?_, ?_, ?_⟩
  · intro s now i u role req r hfind hown hv hpast
    unfold update
    rw [if_neg (not_not_intro hv), hfind]
    dsimp only
    rw [if_neg (by simp [hown]), if_pos hpast]
  · intro s now i u role r hfind hown hst hpast
    unfold cancel
    rw [hfind]
    dsimp only
    rw [if_neg (by simp [hown]), if_neg (by simp [hst]), if_pos hpast]
  · intro s now i u role r hfind hown hst hpast
    unfold cancel
    rw [hfind]
    dsimp only
    rw [if_neg (by simp [hown]), if_pos hst]
  · intro s i r hfind
    unfold getReservation
    rw [hfind]

/-- C6 witness: concrete instances — update and cancel of an elapsed
active reservation fail with `PastReservation`, repeat-cancel of the
elapsed cancelled one succeeds, and both reservations remain readable. -/
theorem claim6_witness :
    update oneResStore 1000 0 7 Role.user selfUpdateReq =
      .error BookingError.PastReservation ∧
    cancel oneResStore 1000 0 7 Role.user =
      .error BookingError.PastReservation ∧
    cancel pastCancelledStore 1000 0 7 Role.user =
      .ok (pastCancelledStore, pastCancelledRes) ∧
    getReservation oneResStore 0 = .ok activeRes ∧
    getReservation pastCancelledStore 0 = .ok pastCancelledRes :=
  ⟨claim6_past_guard.1 oneResStore 1000 0 7 Role.user selfUpdateReq activeRes
      rfl (by decide) (by decide) (by decide),
   claim6_past_guard.2.1 oneResStore 1000 0 7 Role.user activeRes rfl
      (by decide) (by decide) (by decide),
   claim6_past_guard.2.2.1 pastCancelledStore 1000 0 7 Role.user
      pastCancelledRes rfl (by decide) (by decide) (by decide),
   claim6_past_guard.2.2.2 oneResStore 0 activeRes rfl,
   claim6_past_guard.2.2.2 pastCancelledStore 0 pastCancelledRes rfl⟩

/-- C7: the calendar sync adapter runs strictly after the booking
commit, on the committed reservation; every failing sync outcome is
absorbed — the booking still returns success with the identical
committed state and reservation, the `google_event_id` correlation id
remains unset, and `calendar_synced = false` is reported; sync failures
are never surfaced as booking errors, and booking errors are exactly
those of the underlying create. -/
theorem claim7_sync_isolation :
    (∀ (s : Store) (req : CreateRequest) (sync : Reservation → SyncResult)
       (e : BookingError),
      createWithSync s req sync = .error e ↔ create s req = .error e) ∧
    (∀ (s : Store) (req : CreateRequest) (sync : Reservation → SyncResult)
       (s' : Store) (r : Reservation),
      create s req = .ok (s', r) → (sync r).isFailure = true →
      createWithSync s req sync = .ok (s', r, false) ∧
      r.google_event_id = none ∧ r ∈ s'.reservations) := by
  constructor
  · intro s req sync e
    unfold createWithSync
    cases hc : create s req with
    | error e' => simp
    | ok p =>
      cases hs : sync p.2 <;> simp [hs]
  · intro s req sync s' r hok hfail
    obtain ⟨_, _, hr, hs'⟩ := create_ok s req s' r hok
    refine ⟨?_, by rw [hr]; rfl, by rw [hs']; exact List.mem_cons_self r _⟩
    unfold createWithSync
    rw [hok]
    dsimp only
    cases hs : sync r with
    | success eid => rw [hs] at hfail; exact Bool.noConfusion hfail
    | transientFailure => rfl
    | permanentFailure => rfl

/-- C7 witness: a forced transient failure of the calendar collaborator
on a concrete booking does not prevent the commit, returns the booked
reservation with no correlation id, and reports the sync as failed. -/
theorem claim7_witness :
    createWithSync emptyStore (reqFor 600 660) (fun _ => .transientFailure) =
      .ok (oneResStore, activeRes, false) ∧
    activeRes.google_event_id = none ∧ activeRes ∈ oneResStore.reservations :=
  claim7_sync_isolation.2 emptyStore (reqFor 600 660)
    (fun _ => .transientFailure) oneResStore activeRes rfl rfl

/-- C8: a create or update request whose requested range does not have
`end_at` strictly after `start_at` fails with `InvalidRange` (no state
is returned, so nothing is persisted or modified), and every operation
preserves the invariant that all persisted reservations satisfy
`end_at > start_at`. -/
theorem claim8_invalid_range :
    (∀ (s : Store) (req : CreateRequest), ¬ req.start_at < req.end_at →
      create s req = .error BookingError.InvalidRange) ∧
    (∀ (s : Store) (now : Int) (i u : Nat) (role : Role) (req : UpdateRequest),
      ¬ req.start_at < req.end_at →
      update s now i u role req = .error BookingError.InvalidRange) ∧
    (∀ (s : Store) (req : CreateRequest) (s' : Store) (r : Reservation),
      ValidRanges s.reservations → create s req = .ok (s', r) →
      ValidRanges s'.reservations) ∧
    (∀ (s : Store) (now : Int) (i u : Nat) (role : Role) (req : UpdateRequest)
       (s' : Store) (r' : Reservation),
      ValidRanges s.reservations → update s now i u role req = .ok (s', r') →
      ValidRanges s'.reservations) ∧
    (∀ (s : Store) (now : Int) (i u : Nat) (role : Role) (s' : Store)
       (r' : Reservation),
      ValidRanges s.reservations → cancel s now i u role = .ok (s', r') →
      ValidRanges s'.reservations) := by
  refine ⟨?_, ?_, fun s req s' r h hc => validRanges_create h hc,
    fun s now i u role req s' r' h hc => validRanges_update h hc,
    fun s now i u role s' r' h hc => validRanges_cancel h hc⟩
  · intro s req hbad
    unfold create
    rw [if_pos hbad]
  · intro s now i u role req hbad
    unfold update
    rw [if_pos hbad]

/-- C8 witness: a concrete empty range `[600, 600)` is rejected with
`InvalidRange` by create and update, and the range-validity invariant
holds on the concrete committed stores. -/
theorem claim8_witness :
    create emptyStore (reqFor 600 600) = .error BookingError.InvalidRange ∧
    update oneResStore 0 0 7 Role.user
      { selfUpdateReq with end_at := 600 } = .error BookingError.InvalidRange ∧
    ValidRanges oneResStore.reservations ∧
    ValidRanges oneResStore.reservations ∧
    ValidRanges cancelledStore.reservations :=
  ⟨claim8_invalid_range.1 emptyStore (reqFor 600 600) (by decide),
   claim8_invalid_range.2.1 oneResStore 0 0 7 Role.user
      { selfUpdateReq with end_at := 600 } (by decide),
   claim8_invalid_range.2.2.1 emptyStore (reqFor 600 660) oneResStore activeRes
      (by unfold ValidRanges; decide) rfl,
   claim8_invalid_range.2.2.2.1 oneResStore 0 0 7 Role.user selfUpdateReq
      oneResStore activeRes (by unfold ValidRanges; decide) rfl,
   claim8_invalid_range.2.2.2.2 oneResStore 0 0 7 Role.user cancelledStore
      cancelledRes0 (by unfold ValidRanges; decide) rfl⟩

theorem runApi_step (respond : Nat → Nat) (rr : Option (String × String))
    (fuel : Nat) (retryFlag : Bool) (attempt : Nat) (b : BrowserState) :
    runApi respond rr (fuel + 1) retryFlag attempt b =
      (if respond attempt = 200 then (.resolvedOk (attempt + 1), b)
       else if respond attempt = 401 ∧ retryFlag = false then
         (match b.storage.refresh_token with
          | some _ =>
            match rr with
            | some (newAccess, newRefresh) =>
              runApi respond rr fuel true (attempt + 1)
                { b with storage :=
                    { access_token := some newAccess,
                      refresh_token := some newRefresh } }
            | none =>
              (.rejectedStatus (respond attempt) (attempt + 1),
               { storage := { access_token := none, refresh_token := none },
                 location := some "/login" })
          | none =>
            (.rejectedStatus (respond attempt) (attempt + 1),
             { b with location := some "/login" }))
       else (.rejectedStatus (respond attempt) (attempt + 1), b)) := rfl

theorem runApi_retried (respond : Nat → Nat) (rr : Option (String × String))
    (fuel attempt : Nat) (b : BrowserState) :
    runApi respond rr (fuel + 1) true attempt b =
      (if respond attempt = 200 then (.resolvedOk (attempt + 1), b)
       else (.rejectedStatus (respond attempt) (attempt + 1), b)) := by
  rw [runApi_step]
  by_cases h : respond attempt = 200
  · simp only [if_pos h]
  · have hc : ¬(respond attempt = 401 ∧ true = false) := fun hh =>
      Bool.noConfusion hh.2
    simp only [if_neg h, if_neg hc]

theorem runApi_retried_one (respond : Nat → Nat) (rr : Option (String × String))
    (attempt : Nat) (b : BrowserState) :
    runApi respond rr 1 true attempt b =
      (if respond attempt = 200 then (.resolvedOk (attempt + 1), b)
       else (.rejectedStatus (respond attempt) (attempt + 1), b)) :=
  runApi_retried respond rr 0 attempt b

/-- C9 counterexample: a server answering 401 to every request, with a
refresh token present and a succeeding refresh. The retried request's
401 is rejected to the caller, but the tokens are the freshly refreshed
ones (not cleared) and no redirect to `/login` happens — contradicting
the claim that every terminal 401 path clears tokens and redirects. -/
theorem claim9_counterexample :
    runApi alwaysUnauthorized (some ("newA", "newR")) 2 false 0 seededBrowser =
      (HttpOutcome.rejectedStatus 401 2,
       ⟨⟨some "newA", some "newR"⟩, none⟩) ∧
    (⟨⟨some "newA", some "newR"⟩, none⟩ : BrowserState).location ≠
      some "/login" ∧
    (⟨⟨some "newA", some "newR"⟩, none⟩ : BrowserState).storage.access_token ≠
      none :=
  ⟨rfl, by decide, by decide⟩

/-- C9 (amended): the interceptor performs at most one refresh-and-retry
cycle — the retried request carries the `_retry` flag, so it can never
trigger a second refresh: two units of recursion budget determine the
outcome for any server behaviour, the outcome is never fuel-exhaustion,
and at most two sends happen. A 401 with no refresh token is rejected
after a redirect to `/login` (tokens untouched); a 401 whose refresh
attempt fails is rejected with both tokens cleared and a redirect to
`/login`; a 401 whose refresh succeeds is retried exactly once, and a
second 401 is rejected to the caller as-is, with the refreshed tokens
stored and no redirect. -/
theorem claim9_single_refresh :
    (∀ (respond : Nat → Nat) (rr : Option (String × String)) (fuel attempt : Nat)
       (b : BrowserState), 2 ≤ fuel →
      runApi respond rr fuel false attempt b =
        runApi respond rr 2 false attempt b) ∧
    (∀ (respond : Nat → Nat) (rr : Option (String × String)) (attempt : Nat)
       (b : BrowserState),
      (runApi respond rr 2 false attempt b).1 ≠ HttpOutcome.outOfFuel) ∧
    (∀ (respond : Nat → Nat) (rr : Option (String × String)) (attempt : Nat)
       (b : BrowserState),
      ((runApi respond rr 2 false attempt b).1).attempts ≤ attempt + 2) ∧
    (∀ (respond : Nat → Nat) (rr : Option (String × String)) (b : BrowserState),
      respond 0 = 401 → b.storage.refresh_token = none →
      runApi respond rr 2 false 0 b =
        (HttpOutcome.rejectedStatus 401 1, { b with location := some "/login" })) ∧
    (∀ (respond : Nat → Nat) (b : BrowserState) (t : String),
      respond 0 = 401 → b.storage.refresh_token = some t →
      runApi respond none 2 false 0 b =
        (HttpOutcome.rejectedStatus 401 1,
         { storage := { access_token := none, refresh_token := none },
           location := some "/login" })) ∧
    (∀ (respond : Nat → Nat) (a rt : String) (b : BrowserState) (t : String),
      respond 0 = 401 → respond 1 = 401 → b.storage.refresh_token = some t →
      runApi respond (some (a, rt)) 2 false 0 b =
        (HttpOutcome.rejectedStatus 401 2,
         { b with
             storage := { access_token := some a, refresh_token := some rt } })) := by
  have hstep2 : ∀ (respond : Nat → Nat) (rr : Option (String × String))
      (attempt : Nat) (b : BrowserState),
      runApi respond rr 2 false attempt b =
        runApi respond rr (1 + 1) false attempt b := fun _ _ _ _ => rfl
  refine ⟨?_, ?_, ?_, ?_, ?_, ?_⟩
  · intro respond rr fuel attempt b hf
    obtain ⟨m, rfl⟩ : ∃ m, fuel = m + 2 := ⟨fuel - 2, by omega⟩
    rw [hstep2, show m + 2 = (m + 1) + 1 from rfl, runApi_step, runApi_step]
    split_ifs with h200 h401
    · rfl
    · cases b.storage.refresh_token with
      | none => rfl
      | some t =>
        cases rr with
        | none => rfl
        | some p =>
          rcases p with ⟨pa, pr⟩
          dsimp only
          rw [runApi_retried, runApi_retried_one]
    · rfl
  · intro respond rr attempt b
    rw [hstep2, runApi_step]
    split_ifs with h200 h401
    · simp
    · cases b.storage.refresh_token with
      | none => simp
      | some t =>
        cases rr with
        | none => simp
        | some p =>
          rcases p with ⟨pa, pr⟩
          dsimp only
          rw [runApi_retried_one]
          split_ifs with h2
          · simp
          · simp
    · simp
  · intro respond rr attempt b
    rw [hstep2, runApi_step]
    split_ifs with h200 h401
    · dsimp only [HttpOutcome.attempts]
      omega
    · cases b.storage.refresh_token with
      | none =>
        dsimp only [HttpOutcome.attempts]
        omega
      | some t =>
        cases rr with
        | none =>
          dsimp only [HttpOutcome.attempts]
          omega
        | some p =>
          rcases p with ⟨pa, pr⟩
          dsimp only
          rw [runApi_retried_one]
          split_ifs with h2
          · dsimp only [HttpOutcome.attempts]
            omega
          · dsimp only [HttpOutcome.attempts]
            omega
    · dsimp only [HttpOutcome.attempts]
      omega
  · intro respond rr b h401 hnone
    have h200 : ¬(respond 0 = 200) := by omega
    have hc : respond 0 = 401 ∧ false = false := ⟨h401, rfl⟩
    rw [hstep2, runApi_step, if_neg h200, if_pos hc, hnone, h401]
  · intro respond b t h401 hsome
    have h200 : ¬(respond 0 = 200) := by omega
    have hc : respond 0 = 401 ∧ false = false := ⟨h401, rfl⟩
    rw [hstep2, runApi_step, if_neg h200, if_pos hc, hsome, h401]
  · intro respond a rt b t h401a h401b hsome
    have h200a : ¬(respond 0 = 200) := by omega
    have hc : respond 0 = 401 ∧ false = false := ⟨h401a, rfl⟩
    rw [hstep2, runApi_step, if_neg h200a, if_pos hc, hsome]
    dsimp only
    rw [runApi_retried_one]
    simp only [Nat.zero_add]
    rw [if_neg (show ¬(respond 1 = 200) by omega), h401b]

/-- C9 witness: concrete instances of every conjunct against the
always-401 server and concrete browser states. -/
theorem claim9_witness :
    runApi alwaysUnauthorized none 5 false 0 seededBrowser =
      runApi alwaysUnauthorized none 2 false 0 seededBrowser ∧
    (runApi alwaysUnauthorized none 2 false 0 seededBrowser).1 ≠
      HttpOutcome.outOfFuel ∧
    ((runApi alwaysUnauthorized none 2 false 0 seededBrowser).1).attempts ≤
      0 + 2 ∧
    runApi alwaysUnauthorized none 2 false 0
        ⟨⟨some "stale", none⟩, none⟩ =
      (HttpOutcome.rejectedStatus 401 1,
       { (⟨⟨some "stale", none⟩, none⟩ : BrowserState) with
           location := some "/login" }) ∧
    runApi alwaysUnauthorized none 2 false 0 seededBrowser =
      (HttpOutcome.rejectedStatus 401 1,
       { storage := { access_token := none, refresh_token := none },
         location := some "/login" }) ∧
    runApi alwaysUnauthorized (some ("newA", "newR")) 2 false 0 seededBrowser =
      (HttpOutcome.rejectedStatus 401 2,
       { seededBrowser with
           storage := { access_token := some "newA", refresh_token := some "newR" } }) :=
  ⟨claim9_single_refresh.1 alwaysUnauthorized none 5 0 seededBrowser (by decide),
   claim9_single_refresh.2.1 alwaysUnauthorized none 0 seededBrowser,
   claim9_single_refresh.2.2.1 alwaysUnauthorized none 0 seededBrowser,
   claim9_single_refresh.2.2.2.1 alwaysUnauthorized none
      ⟨⟨some "stale", none⟩, none⟩ rfl rfl,
   claim9_single_refresh.2.2.2.2.1 alwaysUnauthorized seededBrowser "seed"
      rfl rfl,
   claim9_single_refresh.2.2.2.2.2 alwaysUnauthorized "newA" "newR"
      seededBrowser "seed" rfl rfl rfl⟩

theorem digitChar_isDigit (n : Nat) : (Nat.digitChar (n % 10)).isDigit = true := by
  have h : n % 10 < 10 := Nat.mod_lt _ (by decide)
  generalize n % 10 = m at h
  interval_cases m <;> rfl

theorem isoHead16_eq {t : Int} (h0 : 0 ≤ (civilFromDays (t / 86400000)).1)
    (h1 : (civilFromDays (t / 86400000)).1 ≤ 9999) :
    isoHead16 t =
      pad4 (civilFromDays (t / 86400000)).1.toNat ++
        '-' :: pad2 (civilFromDays (t / 86400000)).2.1 ++
        '-' :: pad2 (civilFromDays (t / 86400000)).2.2 ++
        'T' :: pad2 ((t % 86400000) / 3600000).toNat ++
        ':' :: pad2 (((t % 86400000) / 60000) % 60).toNat := by
  unfold isoHead16 yearChars
  dsimp only
  rw [if_pos ⟨h0, h1⟩]

theorem isoHead16_length {t : Int} (h0 : 0 ≤ (civilFromDays (t / 86400000)).1)
    (h1 : (civilFromDays (t / 86400000)).1 ≤ 9999) :
    (isoHead16 t).length = 16 := by
  rw [isoHead16_eq h0 h1]
  simp [pad4, pad3, pad2]

theorem toISOChars_take16 {t : Int} (h0 : 0 ≤ (civilFromDays (t / 86400000)).1)
    (h1 : (civilFromDays (t / 86400000)).1 ≤ 9999) :
    (toISOChars t).take 16 = isoHead16 t := by
  unfold toISOChars
  exact List.take_left' (isoHead16_length h0 h1)

/-- C10 counterexample: `toLocalDatetime` is not total. On the largest
representable instant (`new Date("+275760-09-13T00:00:00.000Z")`, time
value 8,640,000,000,000,000 ms) in a UTC+9 zone (`getTimezoneOffset() =
-540`), the offset-adjusted time value exceeds the `Date` range, so the
unguarded second `new Date(...)` is invalid and `toISOString()` throws a
`RangeError` (modelled as `none`). With a zero offset the same input
returns a 16-character prefix that is in the expanded-year form, not
`YYYY-MM-DDTHH:mm`. -/
theorem claim10_counterexample :
    toLocalDatetime parseMaxInstant offsetSeoul "+275760-09-13T00:00:00.000Z" =
      none ∧
    toLocalDatetime parseMaxInstant (fun _ => 0) "+275760-09-13T00:00:00.000Z" =
      some "+275760-09-13T00" :=
  ⟨by decide, by decide⟩

/-- C10 (amended): `toLocalDatetime` returns `some ""` on empty,
whitespace-only, or unparseable (`NaN`) input; when the parsed time
value adjusted by the timezone offset stays within the representable
`Date` range it returns the 16-character prefix of the adjusted ISO
string — which has the `YYYY-MM-DDTHH:mm` shape (4-2-2-2-2 zero-padded
decimal fields separated by `-`, `-`, `T`, `:`) whenever the adjusted
UTC year lies in 0–9999 — but when the adjusted time value leaves the
representable range, `toISOString` throws a `RangeError` instead of
returning. -/
theorem claim10_toLocalDatetime :
    (∀ (parse : String → Option Int) (offsetOf : Int → Int) (iso : String),
      iso = "" ∨ jsTrim iso = "" →
      toLocalDatetime parse offsetOf iso = some "") ∧
    (∀ (parse : String → Option Int) (offsetOf : Int → Int) (iso : String),
      ¬(iso = "" ∨ jsTrim iso = "") → parse iso = none →
      toLocalDatetime parse offsetOf iso = some "") ∧
    (∀ (parse : String → Option Int) (offsetOf : Int → Int) (iso : String)
       (t : Int),
      ¬(iso = "" ∨ jsTrim iso = "") → parse iso = some t →
      (t - offsetOf t * 60000).natAbs ≤ maxTimeValue →
      toLocalDatetime parse offsetOf iso =
        some (String.mk ((toISOChars (t - offsetOf t * 60000)).take 16))) ∧
    (∀ t : Int, 0 ≤ (civilFromDays (t / 86400000)).1 →
      (civilFromDays (t / 86400000)).1 ≤ 9999 →
      (toISOChars t).take 16 =
        pad4 (civilFromDays (t / 86400000)).1.toNat ++
          '-' :: pad2 (civilFromDays (t / 86400000)).2.1 ++
          '-' :: pad2 (civilFromDays (t / 86400000)).2.2 ++
          'T' :: pad2 ((t % 86400000) / 3600000).toNat ++
          ':' :: pad2 (((t % 86400000) / 60000) % 60).toNat ∧
      ((toISOChars t).take 16).length = 16) ∧
    (∀ n : Nat, ((pad2 n).all fun ch => ch.isDigit) = true ∧
      ((pad4 n).all fun ch => ch.isDigit) = true) ∧
    (∀ (parse : String → Option Int) (offsetOf : Int → Int) (iso : String)
       (t : Int),
      ¬(iso = "" ∨ jsTrim iso = "") → parse iso = some t →
      maxTimeValue < (t - offsetOf t * 60000).natAbs →
      toLocalDatetime parse offsetOf iso = none) := by
  refine ⟨?_, ?_, ?_, ?_, ?_, ?_⟩
  · intro parse offsetOf iso h
    unfold toLocalDatetime
    rw [if_pos h]
  · intro parse offsetOf iso h hp
    unfold toLocalDatetime
    rw [if_neg h, hp]
  · intro parse offsetOf iso t h hp hin
    unfold toLocalDatetime
    rw [if_neg h, hp]
    dsimp only
    rw [if_pos hin]
  · intro t h0 h1
    refine ⟨?_, ?_⟩
    · rw [toISOChars_take16 h0 h1, isoHead16_eq h0 h1]
    · rw [toISOChars_take16 h0 h1]
      exact isoHead16_length h0 h1
  · intro n
    constructor
    · simp [pad2, digitChar_isDigit]
    · simp [pad4, pad3, pad2, digitChar_isDigit]
  · intro parse offsetOf iso t h hp hout
    unfold toLocalDatetime
    rw [if_neg h, hp]
    dsimp only
    rw [if_neg (Nat.not_le.mpr hout)]

/-- C10 witness: concrete instances of each conjunct — whitespace input,
unparseable input, an ordinary instant (2024-01-02T03:04:05.123Z at
UTC), its 16-character prefix decomposition, digit padding, and the
out-of-range throwing input. -/
theorem claim10_witness :
    toLocalDatetime parseMaxInstant offsetSeoul " " = some "" ∧
    toLocalDatetime parseMaxInstant offsetSeoul "not-a-date" = some "" ∧
    toLocalDatetime (fun _ => some 1704164645123) (fun _ => 0) "x" =
      some (String.mk ((toISOChars 1704164645123).take 16)) ∧
    ((toISOChars 1704164645123).take 16).length = 16 ∧
    ((pad2 7).all fun ch => ch.isDigit) = true ∧
    toLocalDatetime parseMaxInstant offsetSeoul "+275760-09-13T00:00:00.000Z" =
      none :=
  ⟨claim10_toLocalDatetime.1 parseMaxInstant offsetSeoul " " (by right; decide),
   claim10_toLocalDatetime.2.1 parseMaxInstant offsetSeoul "not-a-date"
      (by decide) rfl,
   claim10_toLocalDatetime.2.2.1 (fun _ => some 1704164645123) (fun _ => 0) "x"
      1704164645123 (by decide) rfl (by decide),
   (claim10_toLocalDatetime.2.2.2.1 1704164645123 (by decide) (by decide)).2,
   (claim10_toLocalDatetime.2.2.2.2.1 7).1,
   claim10_toLocalDatetime.2.2.2.2.2 parseMaxInstant offsetSeoul
      "+275760-09-13T00:00:00.000Z" (Int.ofNat maxTimeValue) (by decide) rfl
      (by decide)⟩

end ServerReservation
